import Mathlib

/-!
# Verification of the computation-aware-GP linear-solver policies

Shallow embedding of
`gpytorch/models/computation_aware_gp/linear_solvers/policies/lanczos_policy.py`
(classes `LanczosPolicy`, `SubsetLanczosPolicy`, `FullLanczosPolicy`) together
with the solver-state data model they operate on.

Modelling conventions:
* Tensors of shape `(n,)` become `Vec n := Fin n → ℝ`; matrices become
  `Matrix (Fin n) (Fin n) ℝ`.
* The string-keyed cache dict of the solver state becomes a record of
  `Option`-valued fields, one per key the policies use; `key in cache`
  becomes `field.isSome`.  Reading an absent key (Python `KeyError`) and the
  `NotImplementedError` raise are modelled with `Except PolicyError`.
* `torch.randn` draws are passed in as an explicit argument `randn`
  (the value the process-wide random source would return).
* The external collaborators `lanczos_tridiag` / `lanczos_tridiag_to_diag`
  (from `linear_operator.utils.lanczos`, outside the excerpt) are passed as
  opaque function parameters; the tridiagonal matrix type is abstract.
-/

/-- A dense real vector of length `n` (a torch tensor of shape `(n,)`). -/
def Vec (n : ℕ) : Type := Fin n → ℝ

/-- Squared Euclidean norm of a vector. -/
def sqnorm {n : ℕ} (v : Vec n) : ℝ := ∑ i, v i ^ 2

/-- `torch.linalg.vector_norm`: the Euclidean (L2) norm. -/
noncomputable def vecNorm {n : ℕ} (v : Vec n) : ℝ := Real.sqrt (sqnorm v)

/-- `v.div(torch.linalg.vector_norm(v))`: entrywise division by the norm. -/
noncomputable def normalizeVec {n : ℕ} (v : Vec n) : Vec n :=
  fun i => v i / vecNorm v

/-- The immutable description of the linear system (field `problem.A`). -/
structure SolverProblem (n : ℕ) where
  A : Matrix (Fin n) (Fin n) ℝ

/-- Errors a policy call can raise: `NotImplementedError` for an unsupported
seeding mode, and a Python `KeyError` for reading an absent cache key. -/
inductive PolicyError where
  | notImplemented
  | keyError
deriving DecidableEq

/-- The portion of the solver state's string-keyed cache dict that the three
policies read or write.  `n` is the system dimension, `k` the number of
accumulated actions (rows of `actions_op`), `m` the length of the vector
stored under `"init_vec"` (`subset_size` for `SubsetLanczosPolicy`, `n` for
`FullLanczosPolicy`). -/
structure SolverCache (n k m : ℕ) where
  seed_vector : Option (Vec n)
  actions_op : Option (Matrix (Fin k) (Fin n) ℝ)
  compressed_solution : Option (Vec k)
  init_vec : Option (Vec m)
  evals_lanczos : Option (List ℝ)
  evecs_lanczos : Option (List (Vec n))

/-- The mutable per-solve solver state threading through policy calls. -/
structure SolverState (n k m : ℕ) where
  problem : SolverProblem n
  iteration : ℕ
  residual : Vec n
  solution : Vec n
  cache : SolverCache n k m

/-- Modelled from the spec: the vector-sparsification utility
`sparsify_vector` (module `_sparsify_vector`, not part of the excerpted
source).  Per the spec it zeroes all but the `num_non_zero` entries of
largest absolute magnitude, retained entries keep their signed values, and
magnitude ties are broken by a deterministic total order, stable by original
index.  Entry `i` is kept iff fewer than `num_non_zero` indices rank
strictly before it (larger magnitude, or equal magnitude and smaller
index). -/
noncomputable def sparsify_vector {n : ℕ} (v : Vec n) (num_non_zero : ℕ) : Vec n :=
  fun i =>
    if (Finset.univ.filter fun j : Fin n =>
          |v i| < |v j| ∨ (|v j| = |v i| ∧ j < i)).card < num_non_zero
    then v i else 0

/-- `LanczosPolicy.__init__`: configuration fields. -/
structure LanczosPolicy where
  seeding : String
  num_nonzero : Option ℕ

/-- The deflation step of `LanczosPolicy.__call__` (the `iteration != 0`
branch, before optional sparsification):
`seed_vector - (actions_op._matmul(A)).mT @ compressed_solution`. -/
def LanczosPolicy.deflatedAction {n k : ℕ} (seed : Vec n)
    (actions_op : Matrix (Fin k) (Fin n) ℝ) (compressed_solution : Vec k)
    (A : Matrix (Fin n) (Fin n) ℝ) : Vec n :=
  fun i => seed i - ((actions_op * A).transpose).mulVec compressed_solution i

/-- The final sparsification step of `LanczosPolicy.__call__`:
`if self.num_nonzero is not None: action = sparsify_vector(action, ...)`. -/
noncomputable def LanczosPolicy.maybeSparsify {n : ℕ} (num_nonzero : Option ℕ)
    (action : Vec n) : Vec n :=
  match num_nonzero with
  | none => action
  | some nnz => sparsify_vector action nnz

/-- `LanczosPolicy.__call__`, after the seed vector is available (cached or
freshly computed): pick the action and sparsify.  `s` already holds the
(possibly updated) cache. -/
noncomputable def LanczosPolicy.finish {n k m : ℕ} (p : LanczosPolicy)
    (seed : Vec n) (s : SolverState n k m) :
    Except PolicyError (Vec n × SolverState n k m) :=
  if s.iteration = 0 then
    Except.ok (LanczosPolicy.maybeSparsify p.num_nonzero seed, s)
  else
    match s.cache.actions_op, s.cache.compressed_solution with
    | some aop, some csol =>
        Except.ok
          (LanczosPolicy.maybeSparsify p.num_nonzero
            (LanczosPolicy.deflatedAction seed aop csol s.problem.A), s)
    | _, _ => Except.error PolicyError.keyError

/-- `LanczosPolicy.__call__`.  If no seed vector is cached: with
`seeding == "random"` draw `randn`, normalizeVec it and cache it under
`"seed_vector"`; any other seeding mode raises `NotImplementedError`.
Then return the seed vector itself at iteration 0, the deflated action
otherwise, sparsified when `num_nonzero` is configured. -/
noncomputable def LanczosPolicy.call {n k m : ℕ} (p : LanczosPolicy)
    (randn : Vec n) (s : SolverState n k m) :
    Except PolicyError (Vec n × SolverState n k m) :=
  match s.cache.seed_vector with
  | some seed => LanczosPolicy.finish p seed s
  | none =>
      if p.seeding = "random" then
        let seed := normalizeVec randn
        LanczosPolicy.finish p seed
          { s with cache := { s.cache with seed_vector := some seed } }
      else Except.error PolicyError.notImplemented

/-- `SubsetLanczosPolicy.__init__`: the configured working-set size. -/
structure SubsetLanczosPolicy where
  subset_size : ℕ

/-- `SubsetLanczosPolicy.__call__`.  If no `"init_vec"` is cached, draw
`randn` of length `subset_size`, normalize it and cache it.  Build an
all-zero vector of length `n` and set its first `subset_size` entries to
`init_vec - A[0:subset_size, 0:subset_size] @ solution[0:subset_size]`.
`hs` records that the leading block of `A` exists (`subset_size ≤ n`),
which the Python slicing presupposes for the shapes to line up. -/
noncomputable def SubsetLanczosPolicy.call {n k : ℕ} (p : SubsetLanczosPolicy)
    (hs : p.subset_size ≤ n) (randn : Vec p.subset_size)
    (s : SolverState n k p.subset_size) : Vec n × SolverState n k p.subset_size :=
  let init_vec := s.cache.init_vec.getD (normalizeVec randn)
  let cache' := { s.cache with init_vec := some init_vec }
  let action : Vec n := fun i =>
    if h : (i : ℕ) < p.subset_size then
      init_vec ⟨i, h⟩ -
        ∑ j : Fin p.subset_size,
          s.problem.A (Fin.castLE hs ⟨i, h⟩) (Fin.castLE hs j) *
            s.solution (Fin.castLE hs j)
    else 0
  (action, { s with cache := cache' })

/-- `FullLanczosPolicy.__init__`: sort order and Lanczos iteration cap. -/
structure FullLanczosPolicy where
  descending : Bool
  max_iter : Option ℕ

/-- `Q @ evecs_T` with `Q` given as a list of `n`-vector columns and
`evecs_T` as a list of coefficient columns: column `c` of the product is
the linear combination of the columns of `Q` with coefficients `c`. -/
def matMulCols {n : ℕ} (Q : List (Vec n)) (E : List (List ℝ)) : List (Vec n) :=
  E.map (fun c => fun i => (List.zipWith (fun q a => q i * a) Q c).sum)

/-- Decidability of the key-descending comparison on eigenpairs. -/
noncomputable instance eigPairGeDecidable {α : Type} :
    DecidableRel (fun a b : ℝ × α => b.1 ≤ a.1) :=
  fun a b => Real.decidableLE b.1 a.1

/-- Decidability of the key-ascending comparison on eigenpairs. -/
noncomputable instance eigPairLeDecidable {α : Type} :
    DecidableRel (fun a b : ℝ × α => a.1 ≤ b.1) :=
  fun a b => Real.decidableLE a.1 b.1

/-- The key-descending comparison on eigenpairs is total. -/
instance eigPairGeTotal {α : Type} :
    IsTotal (ℝ × α) (fun a b => b.1 ≤ a.1) :=
  ⟨fun a b => le_total b.1 a.1⟩

/-- The key-descending comparison on eigenpairs is transitive. -/
instance eigPairGeTrans {α : Type} :
    IsTrans (ℝ × α) (fun a b => b.1 ≤ a.1) :=
  ⟨fun _ _ _ h1 h2 => le_trans h2 h1⟩

/-- The key-ascending comparison on eigenpairs is total. -/
instance eigPairLeTotal {α : Type} :
    IsTotal (ℝ × α) (fun a b => a.1 ≤ b.1) :=
  ⟨fun a b => le_total a.1 b.1⟩

/-- The key-ascending comparison on eigenpairs is transitive. -/
instance eigPairLeTrans {α : Type} :
    IsTrans (ℝ × α) (fun a b => a.1 ≤ b.1) :=
  ⟨fun _ _ _ h1 h2 => le_trans h1 h2⟩

/-- `torch.sort(evals, descending=descending)` together with the gather
`evecs[:, idcs]`: sort the (eigenvalue, eigenvector-column) pairs by
eigenvalue in the configured order, keeping each column with its value. -/
noncomputable def sortEigenpairs {n : ℕ} (descending : Bool)
    (pairs : List (ℝ × Vec n)) : List (ℝ × Vec n) :=
  if descending then List.insertionSort (fun a b => b.1 ≤ a.1) pairs
  else List.insertionSort (fun a b => a.1 ≤ b.1) pairs

/-- The eigenpair pipeline of `FullLanczosPolicy.__call__`: Lanczos
tridiagonalization of `A` from `init_vecs` for `max_iter` (default `n`)
steps with tolerance `1e-5`, eigen-decomposition of the tridiagonal matrix
`T`, transformation of its eigenvectors back through `Q`, paired with their
eigenvalues (pre-sort). -/
noncomputable def FullLanczosPolicy.computedPairs {n k : ℕ} {TMat : Type}
    (p : FullLanczosPolicy)
    (lanczos_tridiag :
      Matrix (Fin n) (Fin n) ℝ → Vec n → ℕ → ℝ → List (Vec n) × TMat)
    (lanczos_tridiag_to_diag : TMat → List ℝ × List (List ℝ))
    (init_vecs : Vec n) (s : SolverState n k n) : List (ℝ × Vec n) :=
  let QT := lanczos_tridiag s.problem.A init_vecs
    (p.max_iter.getD n) (1 / 100000)
  let ed := lanczos_tridiag_to_diag QT.2
  let evecs_lanczos := matMulCols QT.1 ed.2
  ed.1.zip evecs_lanczos

/-- The `iteration == 0` initialization block of
`FullLanczosPolicy.__call__`: the residual-derived candidate `init_vecs`
is immediately overwritten by a fresh `torch.randn` draw; the eigenpairs
computed from that random vector are sorted by eigenvalue in the
configured order and cached together with the normalized initial
vector. -/
noncomputable def FullLanczosPolicy.initCache {n k : ℕ} {TMat : Type}
    (p : FullLanczosPolicy)
    (lanczos_tridiag :
      Matrix (Fin n) (Fin n) ℝ → Vec n → ℕ → ℝ → List (Vec n) × TMat)
    (lanczos_tridiag_to_diag : TMat → List ℝ × List (List ℝ))
    (randn : Vec n) (s : SolverState n k n) : SolverCache n k n :=
  let _init_vecs := s.residual
  let init_vecs := randn
  let sorted := sortEigenpairs p.descending
    (FullLanczosPolicy.computedPairs p lanczos_tridiag lanczos_tridiag_to_diag
      init_vecs s)
  { s.cache with
      evals_lanczos := some (sorted.map Prod.fst)
      evecs_lanczos := some (sorted.map Prod.snd)
      init_vec := some (normalizeVec init_vecs) }

/-- The "return approximate eigenvectors according to strategy" tail of
`FullLanczosPolicy.__call__`: return cached eigenvector column `iteration`
when it exists (reading `"evecs_lanczos"` raises `KeyError` when absent),
and the current residual otherwise. -/
noncomputable def FullLanczosPolicy.select {n k : ℕ}
    (s1 : SolverState n k n) :
    Except PolicyError (Vec n × SolverState n k n) :=
  match s1.cache.evecs_lanczos with
  | none => Except.error PolicyError.keyError
  | some evecs =>
      if h : s1.iteration < evecs.length then
        Except.ok (evecs.get ⟨s1.iteration, h⟩, s1)
      else
        Except.ok (s1.residual, s1)

/-- `FullLanczosPolicy.__call__`.  At iteration 0, eagerly compute and cache
the sorted approximate eigenpairs and the normalized initial vector; then
select the returned action from the (possibly just updated) state. -/
noncomputable def FullLanczosPolicy.call {n k : ℕ} {TMat : Type}
    (p : FullLanczosPolicy)
    (lanczos_tridiag :
      Matrix (Fin n) (Fin n) ℝ → Vec n → ℕ → ℝ → List (Vec n) × TMat)
    (lanczos_tridiag_to_diag : TMat → List ℝ × List (List ℝ))
    (randn : Vec n) (s : SolverState n k n) :
    Except PolicyError (Vec n × SolverState n k n) :=
  let s1 : SolverState n k n :=
    if s.iteration = 0 then
      { s with cache :=
          (FullLanczosPolicy.initCache p lanczos_tridiag lanczos_tridiag_to_diag
            randn s) }
    else s
  FullLanczosPolicy.select s1

/-! ## Concrete instances used by counterexamples -/

/-- Concrete policy for the sparsification counterexample:
`LanczosPolicy(seeding="random", num_non_zero=1)`. -/
def lpSparse : LanczosPolicy := ⟨"random", some 1⟩

/-- Concrete random draw `(3, 4)` used by the sparsification counterexample. -/
def rThreeFour : Vec 2 := ![3, 4]

/-- A fresh dimension-2 solver state with an empty cache at iteration 0. -/
def sFresh2 : SolverState 2 0 0 :=
  ⟨⟨fun _ _ => 1⟩, 0, fun _ => 0, fun _ => 0, ⟨none, none, none, none, none, none⟩⟩

/-- The all-ones vector of dimension 2, used as a pre-cached seed vector. -/
def vOnes2 : Vec 2 := fun _ => 1

/-- A dimension-2 state whose cache already holds `"seed_vector"`. -/
def sSeeded : SolverState 2 0 0 :=
  ⟨⟨fun _ _ => 1⟩, 0, fun _ => 0, fun _ => 0,
    ⟨some vOnes2, none, none, none, none, none⟩⟩

/-- The one-entry all-ones vector. -/
def vOnes1 : Vec 1 := fun _ => 1

/-- A dimension-2 state (subset size 1) whose cache already holds
`"init_vec"`. -/
def sSubCached : SolverState 2 0 1 :=
  ⟨⟨fun _ _ => 1⟩, 0, fun _ => 0, fun _ => 0,
    ⟨none, none, none, some vOnes1, none, none⟩⟩

/-- A dimension-1 state at iteration 1 with `"seed_vector"`, `"actions_op"`
and `"compressed_solution"` all cached, as the outer solver loop would have
left them. -/
def sDeflated : SolverState 1 1 0 :=
  ⟨⟨fun _ _ => 1⟩, 1, fun _ => 0, fun _ => 0,
    ⟨some vOnes1, some (fun _ _ => 1), some (fun _ => 1), none, none, none⟩⟩

/-- A concrete stand-in for the external `lanczos_tridiag` collaborator that
returns an empty basis. -/
def trivialTridiag : Matrix (Fin 1) (Fin 1) ℝ → Vec 1 → ℕ → ℝ →
    List (Vec 1) × Unit :=
  fun _ _ _ _ => ([], ())

/-- A concrete stand-in for the external `lanczos_tridiag_to_diag`
collaborator that returns no eigenpairs. -/
def trivialToDiag : Unit → List ℝ × List (List ℝ) := fun _ => ([], [])

/-- `FullLanczosPolicy(descending=True, max_iter=None)`, the defaults. -/
def fullP : FullLanczosPolicy := ⟨true, none⟩

/-- `FullLanczosPolicy(descending=False, max_iter=None)`, the ascending
configuration. -/
def fullPAsc : FullLanczosPolicy := ⟨false, none⟩

/-- The constant-2 one-entry vector, a pre-cached `"init_vec"`. -/
def vTwo1 : Vec 1 := fun _ => 2

/-- The constant-3 one-entry vector, a concrete random draw. -/
def rThree1 : Vec 1 := fun _ => 3

/-- A dimension-1 state at iteration 0 whose cache already holds the
`"init_vec"`, `"evals_lanczos"` and `"evecs_lanczos"` entries of
`FullLanczosPolicy`. -/
def sFullCached : SolverState 1 0 1 :=
  ⟨⟨fun _ _ => 1⟩, 0, fun _ => 0, fun _ => 0,
    ⟨none, none, none, some vTwo1, some [], some []⟩⟩

/-! ## Helper lemmas -/

lemma sqnorm_pos {n : ℕ} (v : Vec n) (i : Fin n) (hi : v i ≠ 0) :
    0 < sqnorm v := by
  refine Finset.sum_pos' (fun j _ => sq_nonneg (v j)) ⟨i, Finset.mem_univ i, ?_⟩
  exact lt_of_le_of_ne (sq_nonneg (v i)) (Ne.symm (pow_ne_zero 2 hi))

lemma vecNorm_normalizeVec {n : ℕ} (v : Vec n) (i : Fin n) (hi : v i ≠ 0) :
    vecNorm (normalizeVec v) = 1 := by
  have hS : 0 < sqnorm v := sqnorm_pos v i hi
  have hone : sqnorm (normalizeVec v) = 1 := by
    simp only [sqnorm, normalizeVec, div_pow, ← Finset.sum_div]
    rw [vecNorm, Real.sq_sqrt hS.le]
    exact div_self (ne_of_gt hS)
  rw [vecNorm, hone, Real.sqrt_one]

lemma LanczosPolicy.finish_ok_eq {n k m : ℕ} {p : LanczosPolicy}
    {seed : Vec n} {s : SolverState n k m} {a : Vec n}
    {s' : SolverState n k m}
    (h : LanczosPolicy.finish p seed s = Except.ok (a, s')) : s' = s := by
  unfold LanczosPolicy.finish at h
  split at h
  · simp only [Except.ok.injEq, Prod.mk.injEq] at h
    exact h.2.symm
  · split at h
    · simp only [Except.ok.injEq, Prod.mk.injEq] at h
      exact h.2.symm
    · simp at h

lemma LanczosPolicy.finish_ne_notImplemented {n k m : ℕ} {p : LanczosPolicy}
    {seed : Vec n} {s : SolverState n k m} :
    LanczosPolicy.finish p seed s ≠ Except.error PolicyError.notImplemented := by
  unfold LanczosPolicy.finish
  split
  · simp
  · split
    · simp
    · simp

lemma LanczosPolicy.call_ok_state {n k m : ℕ} {p : LanczosPolicy}
    {r : Vec n} {s : SolverState n k m} {a : Vec n} {s' : SolverState n k m}
    (h : LanczosPolicy.call p r s = Except.ok (a, s')) :
    s' = s ∨
      s' = { s with cache :=
        { s.cache with seed_vector := some (normalizeVec r) } } := by
  simp only [LanczosPolicy.call] at h
  split at h
  · exact Or.inl (LanczosPolicy.finish_ok_eq h)
  · split at h
    · exact Or.inr (LanczosPolicy.finish_ok_eq h)
    · simp at h

lemma FullLanczosPolicy.select_ok_eq {n k : ℕ} {s1 : SolverState n k n}
    {a : Vec n} {s' : SolverState n k n}
    (h : FullLanczosPolicy.select s1 = Except.ok (a, s')) : s' = s1 := by
  unfold FullLanczosPolicy.select at h
  split at h
  · simp at h
  · split at h
    · simp only [Except.ok.injEq, Prod.mk.injEq] at h
      exact h.2.symm
    · simp only [Except.ok.injEq, Prod.mk.injEq] at h
      exact h.2.symm

lemma FullLanczosPolicy.select_action {n k : ℕ} {s1 : SolverState n k n}
    {a : Vec n} {s' : SolverState n k n} {evecs : List (Vec n)}
    (h : FullLanczosPolicy.select s1 = Except.ok (a, s'))
    (hv : s1.cache.evecs_lanczos = some evecs) :
    (∀ hlt : s1.iteration < evecs.length, a = evecs.get ⟨s1.iteration, hlt⟩) ∧
      (evecs.length ≤ s1.iteration → a = s1.residual) := by
  unfold FullLanczosPolicy.select at h
  rw [hv] at h
  have h' : (if hc : s1.iteration < evecs.length then
      Except.ok (evecs.get ⟨s1.iteration, hc⟩, s1)
    else Except.ok (s1.residual, s1)) = Except.ok (a, s') := h
  by_cases hlt : s1.iteration < evecs.length
  · rw [dif_pos hlt] at h'
    simp only [Except.ok.injEq, Prod.mk.injEq] at h'
    exact ⟨fun _ => h'.1.symm, fun hle => absurd hlt (not_lt.mpr hle)⟩
  · rw [dif_neg hlt] at h'
    simp only [Except.ok.injEq, Prod.mk.injEq] at h'
    exact ⟨fun hlt' => absurd hlt' hlt, fun _ => h'.1.symm⟩

lemma FullLanczosPolicy.call_ok_updated {n k : ℕ} {TMat : Type}
    {p : FullLanczosPolicy}
    {lt : Matrix (Fin n) (Fin n) ℝ → Vec n → ℕ → ℝ → List (Vec n) × TMat}
    {ltd : TMat → List ℝ × List (List ℝ)} {r : Vec n}
    {s : SolverState n k n} {a : Vec n} {s' : SolverState n k n}
    (h : FullLanczosPolicy.call p lt ltd r s = Except.ok (a, s')) :
    s' = (if s.iteration = 0 then
      { s with cache := FullLanczosPolicy.initCache p lt ltd r s }
    else s) := by
  simp only [FullLanczosPolicy.call] at h
  exact FullLanczosPolicy.select_ok_eq h

/-! ## Claims -/

/-- C3 (amended): with the default configuration (`seeding="random"`, no
`num_non_zero` sparsification limit), a `LanczosPolicy` call at iteration 0
on a fresh cache with a nonzero random draw succeeds, returns the normalized
random draw of length `n`, and that vector has Euclidean norm exactly 1.
(The claim's extension to configurations with a sparsification limit is
refuted by `lanczosPolicy_sparsified_iter0_not_unit_norm`.) -/
theorem lanczosPolicy_iter0_unit_norm {n k m : ℕ} (p : LanczosPolicy)
    (randn : Vec n) (s : SolverState n k m) (i : Fin n)
    (hseed : p.seeding = "random") (hnnz : p.num_nonzero = none)
    (hc : s.cache.seed_vector = none) (hit : s.iteration = 0)
    (hr : randn i ≠ 0) :
    LanczosPolicy.call p randn s =
      Except.ok (normalizeVec randn,
        { s with cache :=
            { s.cache with seed_vector := some (normalizeVec randn) } }) ∧
    vecNorm (normalizeVec randn) = 1 := by
  refine ⟨?_, vecNorm_normalizeVec randn i hr⟩
  simp [LanczosPolicy.call, LanczosPolicy.finish, LanczosPolicy.maybeSparsify,
    hc, hseed, hnnz, hit]

/-- Witness for `lanczosPolicy_iter0_unit_norm` at
`LanczosPolicy(seeding="random", num_non_zero=None)`, random draw `(3, 4)`,
and a fresh dimension-2 state. -/
theorem lanczosPolicy_iter0_unit_norm_witness :
    LanczosPolicy.call ⟨"random", none⟩ rThreeFour sFresh2 =
      Except.ok (normalizeVec rThreeFour,
        { sFresh2 with cache :=
            { sFresh2.cache with
                seed_vector := some (normalizeVec rThreeFour) } }) ∧
    vecNorm (normalizeVec rThreeFour) = 1 :=
  lanczosPolicy_iter0_unit_norm ⟨"random", none⟩ rThreeFour sFresh2 0
    rfl rfl rfl rfl (by norm_num [rThreeFour])

/-- C3 (counterexample): with a sparsification limit configured
(`LanczosPolicy(seeding="random", num_non_zero=1)`), the iteration-0 call on
a fresh dimension-2 state with random draw `(3, 4)` returns the sparsified
seed vector `(0, 4/5)`, whose Euclidean norm is `4/5 ≠ 1`;
so "norm exactly 1 for every valid configuration" fails as soon as the
`num_non_zero` limit is set. -/
theorem lanczosPolicy_sparsified_iter0_not_unit_norm :
    (LanczosPolicy.call lpSparse rThreeFour sFresh2).map (fun x => vecNorm x.1) =
      Except.ok (4 / 5) ∧ (4 / 5 : ℝ) ≠ 1 := by
  have hr0 : rThreeFour 0 = 3 := by norm_num [rThreeFour]
  have hr1 : rThreeFour 1 = 4 := by norm_num [rThreeFour]
  have hS : sqnorm rThreeFour = 25 := by
    simp [sqnorm, Fin.sum_univ_two, hr0, hr1]
    norm_num
  have hN : vecNorm rThreeFour = 5 := by
    rw [vecNorm, hS, show (25 : ℝ) = 5 ^ 2 by norm_num,
      Real.sqrt_sq (by norm_num : (0 : ℝ) ≤ 5)]
  have hnv0 : normalizeVec rThreeFour 0 = 3 / 5 := by
    simp [normalizeVec, hr0, hN]
  have hnv1 : normalizeVec rThreeFour 1 = 4 / 5 := by
    simp [normalizeVec, hr1, hN]
  have habs0 : |normalizeVec rThreeFour 0| = 3 / 5 := by
    rw [hnv0]; exact abs_of_pos (by norm_num)
  have habs1 : |normalizeVec rThreeFour 1| = 4 / 5 := by
    rw [hnv1]; exact abs_of_pos (by norm_num)
  have hfil0 : (Finset.univ.filter fun j : Fin 2 =>
      |normalizeVec rThreeFour 0| < |normalizeVec rThreeFour j| ∨
        (|normalizeVec rThreeFour j| = |normalizeVec rThreeFour 0| ∧ j < 0)) =
      {1} := by
    ext j
    fin_cases j <;> simp [habs0, habs1] <;> norm_num
  have hfil1 : (Finset.univ.filter fun j : Fin 2 =>
      |normalizeVec rThreeFour 1| < |normalizeVec rThreeFour j| ∨
        (|normalizeVec rThreeFour j| = |normalizeVec rThreeFour 1| ∧ j < 1)) =
      ∅ := by
    ext j
    fin_cases j <;> simp [habs0, habs1] <;> norm_num
  have ha0 : sparsify_vector (normalizeVec rThreeFour) 1 0 = 0 := by
    simp only [sparsify_vector, hfil0]
    simp
  have ha1 : sparsify_vector (normalizeVec rThreeFour) 1 1 = 4 / 5 := by
    simp only [sparsify_vector, hfil1]
    simpa using hnv1
  have hsq : sqnorm (sparsify_vector (normalizeVec rThreeFour) 1) = 16 / 25 := by
    simp [sqnorm, Fin.sum_univ_two, ha0, ha1]
    norm_num
  have hvn : vecNorm (sparsify_vector (normalizeVec rThreeFour) 1) = 4 / 5 := by
    rw [vecNorm, hsq, show (16 : ℝ) / 25 = (4 / 5) ^ 2 by norm_num,
      Real.sqrt_sq (by norm_num : (0 : ℝ) ≤ 4 / 5)]
  refine ⟨?_, by norm_num⟩
  have hcall : LanczosPolicy.call lpSparse rThreeFour sFresh2 =
      Except.ok (sparsify_vector (normalizeVec rThreeFour) 1,
        { sFresh2 with cache :=
            { sFresh2.cache with
                seed_vector := some (normalizeVec rThreeFour) } }) := by
    simp [LanczosPolicy.call, LanczosPolicy.finish, LanczosPolicy.maybeSparsify,
      lpSparse, sFresh2]
  rw [hcall]
  simp [Except.map, hvn]

/-- C1 (amended): `LanczosPolicy` and `SubsetLanczosPolicy` check the cache
before computing: once `"seed_vector"` (resp. `"init_vec"`) is cached, a
call with the same state neither depends on the random source nor
overwrites the cached entry — two calls with the same state and different
random draws return the same action and state, and the entry survives
unchanged.  (`FullLanczosPolicy` violates this: it gates initialization on
`iteration == 0` instead of cache existence, see
`fullLanczos_recomputes_at_iteration_zero`.) -/
theorem computeOnce_cached_seed
    (n k m : ℕ) (p : LanczosPolicy) (v : Vec n) (s : SolverState n k m)
    (hc : s.cache.seed_vector = some v)
    (r1 r2 a1 a2 : Vec n) (s1 s2 : SolverState n k m)
    (h1 : LanczosPolicy.call p r1 s = Except.ok (a1, s1))
    (h2 : LanczosPolicy.call p r2 s = Except.ok (a2, s2))
    (n' k' : ℕ) (q : SubsetLanczosPolicy) (hs : q.subset_size ≤ n')
    (w : Vec q.subset_size) (t : SolverState n' k' q.subset_size)
    (hw : t.cache.init_vec = some w) (u1 u2 : Vec q.subset_size) :
    (a1 = a2 ∧ s1 = s2 ∧ s1.cache.seed_vector = some v) ∧
    (SubsetLanczosPolicy.call q hs u1 t = SubsetLanczosPolicy.call q hs u2 t ∧
      ((SubsetLanczosPolicy.call q hs u1 t).2).cache.init_vec = some w) := by
  have e1 : LanczosPolicy.call p r1 s = LanczosPolicy.finish p v s := by
    simp [LanczosPolicy.call, hc]
  have e2 : LanczosPolicy.call p r2 s = LanczosPolicy.finish p v s := by
    simp [LanczosPolicy.call, hc]
  rw [e1] at h1
  rw [e2] at h2
  have h12 : (Except.ok (a1, s1) :
      Except PolicyError (Vec n × SolverState n k m)) = Except.ok (a2, s2) :=
    h1.symm.trans h2
  simp only [Except.ok.injEq, Prod.mk.injEq] at h12
  refine ⟨⟨h12.1, h12.2, ?_⟩, ?_, ?_⟩
  · rw [LanczosPolicy.finish_ok_eq h1]
    exact hc
  · simp [SubsetLanczosPolicy.call, hw]
  · simp [SubsetLanczosPolicy.call, hw]

/-- Witness for `computeOnce_cached_seed` at concrete pre-seeded states:
a dimension-2 `LanczosPolicy` state with cached seed `vOnes2` and two
distinct draws, and a subset-size-1 state with cached init vector
`vOnes1`. -/
theorem computeOnce_cached_seed_witness :
    ((vOnes2 : Vec 2) = vOnes2 ∧ sSeeded = sSeeded ∧
      sSeeded.cache.seed_vector = some vOnes2) ∧
    (SubsetLanczosPolicy.call ⟨1⟩ (by norm_num) vOnes1 sSubCached =
        SubsetLanczosPolicy.call ⟨1⟩ (by norm_num) (fun _ => 7) sSubCached ∧
      ((SubsetLanczosPolicy.call ⟨1⟩ (by norm_num) vOnes1
          sSubCached).2).cache.init_vec = some vOnes1) :=
  computeOnce_cached_seed 2 0 0 ⟨"random", none⟩ vOnes2 sSeeded rfl
    rThreeFour (fun _ => 7) vOnes2 vOnes2 sSeeded sSeeded rfl rfl
    2 0 ⟨1⟩ (by norm_num) vOnes1 sSubCached rfl vOnes1 (fun _ => 7)

/-- C1 (counterexample): `FullLanczosPolicy` does not check the cache.  On a
state at iteration 0 whose cache already holds `"init_vec"` (together with
the eigenpair entries), a call recomputes from the fresh random draw and
overwrites the cached initial vector. -/
theorem fullLanczos_recomputes_at_iteration_zero :
    sFullCached.cache.init_vec = some vTwo1 ∧
    (FullLanczosPolicy.call fullP trivialTridiag trivialToDiag rThree1
        sFullCached).map (fun x => x.2.cache.init_vec) ≠
      Except.ok (some vTwo1) := by
  refine ⟨rfl, ?_⟩
  have hcall : FullLanczosPolicy.call fullP trivialTridiag trivialToDiag
      rThree1 sFullCached =
      Except.ok (sFullCached.residual,
        { sFullCached with cache :=
            (FullLanczosPolicy.initCache fullP trivialTridiag trivialToDiag
              rThree1 sFullCached) }) := rfl
  have hN : vecNorm rThree1 = 3 := by
    have h9 : sqnorm rThree1 = 9 := by
      simp [sqnorm, Fin.sum_univ_one, rThree1]
      norm_num
    rw [vecNorm, h9, show (9 : ℝ) = 3 ^ 2 by norm_num,
      Real.sqrt_sq (by norm_num : (0 : ℝ) ≤ 3)]
  intro hEq
  rw [hcall] at hEq
  simp only [Except.map, FullLanczosPolicy.initCache, Except.ok.injEq,
    Option.some.injEq] at hEq
  have h0 := congrFun hEq 0
  rw [normalizeVec] at h0
  simp only [hN, rThree1, vTwo1] at h0
  norm_num at h0

/-- C2: at any iteration ≥ 1 with the seed vector, accumulated-actions
operator and compressed solution cached, the action computed by
`LanczosPolicy` before optional sparsification is exactly
`seed_vector - (actions_op · A)ᵀ @ compressed_solution`; componentwise,
entry `i` is `seed i - ∑ j, (∑ l, actions_op j l * A l i) * csol j`.  When
no sparsification limit is configured, the returned action itself is that
deflated vector. -/
theorem lanczosPolicy_deflation_formula {n k m : ℕ} (p : LanczosPolicy)
    (r : Vec n) (s : SolverState n k m) (seed : Vec n)
    (aop : Matrix (Fin k) (Fin n) ℝ) (csol : Vec k)
    (hit : s.iteration ≠ 0)
    (hseed : s.cache.seed_vector = some seed)
    (haop : s.cache.actions_op = some aop)
    (hcsol : s.cache.compressed_solution = some csol) :
    LanczosPolicy.call p r s =
      Except.ok (LanczosPolicy.maybeSparsify p.num_nonzero
        (LanczosPolicy.deflatedAction seed aop csol s.problem.A), s) ∧
    (p.num_nonzero = none →
      LanczosPolicy.call p r s =
        Except.ok (LanczosPolicy.deflatedAction seed aop csol s.problem.A, s)) ∧
    ∀ i : Fin n,
      LanczosPolicy.deflatedAction seed aop csol s.problem.A i =
        seed i - ∑ j : Fin k, (∑ l : Fin n, aop j l * s.problem.A l i) * csol j := by
  refine ⟨?_, ?_, ?_⟩
  · simp [LanczosPolicy.call, LanczosPolicy.finish, hseed, haop, hcsol, hit]
  · intro hnnz
    simp [LanczosPolicy.call, LanczosPolicy.finish, LanczosPolicy.maybeSparsify,
      hseed, haop, hcsol, hit, hnnz]
  · intro i
    simp [LanczosPolicy.deflatedAction, Matrix.mulVec, Matrix.transpose_apply,
      Matrix.mul_apply, Matrix.dotProduct]

/-- Witness for `lanczosPolicy_deflation_formula` at the concrete
iteration-1 state `sDeflated` with all three cache entries present. -/
theorem lanczosPolicy_deflation_formula_witness :
    LanczosPolicy.call ⟨"random", none⟩ rThree1 sDeflated =
      Except.ok (LanczosPolicy.maybeSparsify none
        (LanczosPolicy.deflatedAction vOnes1
          (fun _ _ => 1 : Matrix (Fin 1) (Fin 1) ℝ) (fun _ => 1 : Vec 1)
          sDeflated.problem.A), sDeflated) ∧
    LanczosPolicy.call ⟨"random", none⟩ rThree1 sDeflated =
      Except.ok (LanczosPolicy.deflatedAction vOnes1
        (fun _ _ => 1 : Matrix (Fin 1) (Fin 1) ℝ) (fun _ => 1 : Vec 1)
        sDeflated.problem.A, sDeflated) ∧
    LanczosPolicy.deflatedAction vOnes1
        (fun _ _ => 1 : Matrix (Fin 1) (Fin 1) ℝ) (fun _ => 1 : Vec 1)
        sDeflated.problem.A 0 =
      vOnes1 0 - ∑ j : Fin 1, (∑ l : Fin 1, 1 * sDeflated.problem.A l 0) * 1 :=
  have h := lanczosPolicy_deflation_formula ⟨"random", none⟩ rThree1 sDeflated
    vOnes1 (fun _ _ => 1 : Matrix (Fin 1) (Fin 1) ℝ) (fun _ => 1 : Vec 1)
    (by decide) rfl rfl rfl
  ⟨h.1, h.2.1 rfl, h.2.2 0⟩

/-- C6: with an unsupported seeding mode (anything other than `"random"`),
a `LanczosPolicy` call on a state with no cached seed vector (the first
call of a solve) raises `NotImplementedError`. -/
theorem lanczosPolicy_unsupported_seeding {n k m : ℕ} (p : LanczosPolicy)
    (r : Vec n) (s : SolverState n k m)
    (hmode : p.seeding ≠ "random") (hc : s.cache.seed_vector = none) :
    LanczosPolicy.call p r s = Except.error PolicyError.notImplemented := by
  simp [LanczosPolicy.call, hc, hmode]

/-- Witness for `lanczosPolicy_unsupported_seeding`:
`LanczosPolicy(seeding="grid")` on a fresh state. -/
theorem lanczosPolicy_unsupported_seeding_witness :
    LanczosPolicy.call ⟨"grid", none⟩ rThreeFour sFresh2 =
      Except.error PolicyError.notImplemented :=
  lanczosPolicy_unsupported_seeding ⟨"grid", none⟩ rThreeFour sFresh2
    (by decide) rfl

/-- C10: when `"seed_vector"` is already cached, a `LanczosPolicy` call
never raises `NotImplementedError`, whatever the configured seeding mode:
the unsupported-seeding branch is only reachable when no seed vector is
cached. -/
theorem lanczosPolicy_cached_seed_no_raise {n k m : ℕ} (p : LanczosPolicy)
    (r : Vec n) (s : SolverState n k m) (v : Vec n)
    (hc : s.cache.seed_vector = some v) :
    LanczosPolicy.call p r s ≠ Except.error PolicyError.notImplemented := by
  intro h
  rw [show LanczosPolicy.call p r s = LanczosPolicy.finish p v s from by
    simp [LanczosPolicy.call, hc]] at h
  exact LanczosPolicy.finish_ne_notImplemented h

/-- Witness for `lanczosPolicy_cached_seed_no_raise`: even with
`seeding="grid"`, a call on the pre-seeded state does not raise. -/
theorem lanczosPolicy_cached_seed_no_raise_witness :
    LanczosPolicy.call ⟨"grid", some 3⟩ rThreeFour sSeeded ≠
      Except.error PolicyError.notImplemented :=
  lanczosPolicy_cached_seed_no_raise ⟨"grid", some 3⟩ rThreeFour sSeeded
    vOnes2 rfl

/-- C5: the vector returned by `SubsetLanczosPolicy` has length `n`, is
exactly zero at every index at or above `subset_size`, and its first
`subset_size` entries equal the cached initial vector (the pre-existing one
if present, else the freshly cached normalized draw — the post-call cache
holds exactly that vector) minus the product of the top-left
`subset_size × subset_size` block of `A` with the first `subset_size`
entries of the current solution estimate. -/
theorem subsetLanczos_action_formula {n k : ℕ} (p : SubsetLanczosPolicy)
    (hs : p.subset_size ≤ n) (r : Vec p.subset_size)
    (s : SolverState n k p.subset_size) :
    ((SubsetLanczosPolicy.call p hs r s).2).cache.init_vec =
      some (s.cache.init_vec.getD (normalizeVec r)) ∧
    (∀ i : Fin n, p.subset_size ≤ (i : ℕ) →
      (SubsetLanczosPolicy.call p hs r s).1 i = 0) ∧
    (∀ (i : Fin n) (h : (i : ℕ) < p.subset_size),
      (SubsetLanczosPolicy.call p hs r s).1 i =
        s.cache.init_vec.getD (normalizeVec r) ⟨i, h⟩ -
          ∑ j : Fin p.subset_size,
            s.problem.A (Fin.castLE hs ⟨i, h⟩) (Fin.castLE hs j) *
              s.solution (Fin.castLE hs j)) := by
  refine ⟨rfl, ?_, ?_⟩
  · intro i hi
    simp [SubsetLanczosPolicy.call, Nat.not_lt.mpr hi]
  · intro i h
    simp [SubsetLanczosPolicy.call, h]

/-- Witness for `subsetLanczos_action_formula` at subset size 1 in
dimension 2: index 1 is zeroed, index 0 carries the deflation formula. -/
theorem subsetLanczos_action_formula_witness :
    ((SubsetLanczosPolicy.call ⟨1⟩ (by norm_num) vOnes1 sSubCached).2).cache.init_vec =
      some (sSubCached.cache.init_vec.getD (normalizeVec vOnes1)) ∧
    (SubsetLanczosPolicy.call ⟨1⟩ (by norm_num) vOnes1 sSubCached).1 1 = 0 ∧
    (SubsetLanczosPolicy.call ⟨1⟩ (by norm_num) vOnes1 sSubCached).1 0 =
      sSubCached.cache.init_vec.getD (normalizeVec vOnes1) ⟨0, by norm_num⟩ -
        ∑ j : Fin 1,
          sSubCached.problem.A
              (Fin.castLE (show (1 : ℕ) ≤ 2 by norm_num) ⟨0, by norm_num⟩)
              (Fin.castLE (show (1 : ℕ) ≤ 2 by norm_num) j) *
            sSubCached.solution (Fin.castLE (show (1 : ℕ) ≤ 2 by norm_num) j) :=
  have h := subsetLanczos_action_formula ⟨1⟩ (by norm_num) vOnes1 sSubCached
  ⟨h.1, h.2.1 1 (by norm_num), h.2.2 0 (by norm_num)⟩

/-- C9: the action returned by `SubsetLanczosPolicy` does not depend on the
solver state's iteration counter: two states identical except for
`iteration` (in particular iteration 0 versus any later one) yield the same
action — there is no iteration-0 special case. -/
theorem subsetLanczos_iteration_independent {n k : ℕ}
    (p : SubsetLanczosPolicy) (hs : p.subset_size ≤ n)
    (r : Vec p.subset_size) (s : SolverState n k p.subset_size) (i j : ℕ) :
    (SubsetLanczosPolicy.call p hs r { s with iteration := i }).1 =
      (SubsetLanczosPolicy.call p hs r { s with iteration := j }).1 := rfl

/-- Witness for `subsetLanczos_iteration_independent` at iterations 0
and 5. -/
theorem subsetLanczos_iteration_independent_witness :
    (SubsetLanczosPolicy.call ⟨1⟩ (by norm_num) vOnes1
        { sSubCached with iteration := 0 }).1 =
      (SubsetLanczosPolicy.call ⟨1⟩ (by norm_num) vOnes1
        { sSubCached with iteration := 5 }).1 :=
  subsetLanczos_iteration_independent ⟨1⟩ (by norm_num) vOnes1 sSubCached 0 5

/-- C7 (frame property): every call of every policy leaves the solver
state's problem (including `A`), iteration counter, residual and solution
unchanged; only the cache map may change. -/
theorem policies_frame_only_cache :
    (∀ (n k m : ℕ) (p : LanczosPolicy) (r : Vec n) (s : SolverState n k m)
        (a : Vec n) (s' : SolverState n k m),
        LanczosPolicy.call p r s = Except.ok (a, s') →
        s'.problem = s.problem ∧ s'.iteration = s.iteration ∧
          s'.residual = s.residual ∧ s'.solution = s.solution) ∧
    (∀ (n k : ℕ) (q : SubsetLanczosPolicy) (hs : q.subset_size ≤ n)
        (r : Vec q.subset_size) (s : SolverState n k q.subset_size),
        ((SubsetLanczosPolicy.call q hs r s).2).problem = s.problem ∧
        ((SubsetLanczosPolicy.call q hs r s).2).iteration = s.iteration ∧
        ((SubsetLanczosPolicy.call q hs r s).2).residual = s.residual ∧
        ((SubsetLanczosPolicy.call q hs r s).2).solution = s.solution) ∧
    (∀ (n k : ℕ) (TMat : Type) (fp : FullLanczosPolicy)
        (lt : Matrix (Fin n) (Fin n) ℝ → Vec n → ℕ → ℝ → List (Vec n) × TMat)
        (ltd : TMat → List ℝ × List (List ℝ)) (r : Vec n)
        (s : SolverState n k n) (a : Vec n) (s' : SolverState n k n),
        FullLanczosPolicy.call fp lt ltd r s = Except.ok (a, s') →
        s'.problem = s.problem ∧ s'.iteration = s.iteration ∧
          s'.residual = s.residual ∧ s'.solution = s.solution) := by
  refine ⟨?_, ?_, ?_⟩
  · intro n k m p r s a s' h
    rcases LanczosPolicy.call_ok_state h with hE | hE <;> subst hE <;>
      exact ⟨rfl, rfl, rfl, rfl⟩
  · intro n k q hs r s
    exact ⟨rfl, rfl, rfl, rfl⟩
  · intro n k TMat fp lt ltd r s a s' h
    have hE := FullLanczosPolicy.call_ok_updated h
    by_cases h0 : s.iteration = 0
    · rw [if_pos h0] at hE
      subst hE
      exact ⟨rfl, rfl, rfl, rfl⟩
    · rw [if_neg h0] at hE
      subst hE
      exact ⟨rfl, rfl, rfl, rfl⟩

/-- Witness for `policies_frame_only_cache`: one concrete successful call
per policy, with the non-cache state fields checked unchanged. -/
theorem policies_frame_only_cache_witness :
    (sSeeded.problem = sSeeded.problem ∧
      sSeeded.iteration = sSeeded.iteration ∧
      sSeeded.residual = sSeeded.residual ∧
      sSeeded.solution = sSeeded.solution) ∧
    (((SubsetLanczosPolicy.call ⟨1⟩ (by norm_num) vOnes1 sSubCached).2).problem =
        sSubCached.problem ∧
      ((SubsetLanczosPolicy.call ⟨1⟩ (by norm_num) vOnes1 sSubCached).2).iteration =
        sSubCached.iteration ∧
      ((SubsetLanczosPolicy.call ⟨1⟩ (by norm_num) vOnes1 sSubCached).2).residual =
        sSubCached.residual ∧
      ((SubsetLanczosPolicy.call ⟨1⟩ (by norm_num) vOnes1 sSubCached).2).solution =
        sSubCached.solution) ∧
    (sFullCached.problem = sFullCached.problem ∧
      sFullCached.iteration = sFullCached.iteration ∧
      sFullCached.residual = sFullCached.residual ∧
      sFullCached.solution = sFullCached.solution) :=
  ⟨policies_frame_only_cache.1 2 0 0 ⟨"random", none⟩ rThreeFour sSeeded
      vOnes2 sSeeded rfl,
    policies_frame_only_cache.2.1 2 0 ⟨1⟩ (by norm_num) vOnes1 sSubCached,
    policies_frame_only_cache.2.2 1 0 Unit fullP trivialTridiag trivialToDiag
      rThree1 sFullCached sFullCached.residual
      { sFullCached with cache :=
          (FullLanczosPolicy.initCache fullP trivialTridiag trivialToDiag
            rThree1 sFullCached) } rfl⟩

/-- C8: the residual-derived candidate for the initial Lanczos vector is
discarded in favor of the fresh random draw: two iteration-0 runs of
`FullLanczosPolicy` that differ only in the state's residual (with the same
random draw and the same external Lanczos collaborators) cache identical
eigenvalues, eigenvectors and initial vector. -/
theorem fullLanczos_residual_independent_init {n k : ℕ} {TMat : Type}
    (p : FullLanczosPolicy)
    (lt : Matrix (Fin n) (Fin n) ℝ → Vec n → ℕ → ℝ → List (Vec n) × TMat)
    (ltd : TMat → List ℝ × List (List ℝ)) (r : Vec n)
    (s : SolverState n k n) (r' : Vec n) (hit : s.iteration = 0)
    (a1 a2 : Vec n) (s1 s2 : SolverState n k n)
    (h1 : FullLanczosPolicy.call p lt ltd r s = Except.ok (a1, s1))
    (h2 : FullLanczosPolicy.call p lt ltd r { s with residual := r' } =
      Except.ok (a2, s2)) :
    s1.cache.evals_lanczos = s2.cache.evals_lanczos ∧
    s1.cache.evecs_lanczos = s2.cache.evecs_lanczos ∧
    s1.cache.init_vec = s2.cache.init_vec := by
  have e1 := FullLanczosPolicy.call_ok_updated h1
  have e2 := FullLanczosPolicy.call_ok_updated h2
  rw [if_pos hit] at e1
  rw [if_pos (show ({ s with residual := r' } :
    SolverState n k n).iteration = 0 from hit)] at e2
  subst e1
  subst e2
  exact ⟨rfl, rfl, rfl⟩

/-- Witness for `fullLanczos_residual_independent_init`: residuals `0` and
the constant vector `5` give identical cached entries. -/
theorem fullLanczos_residual_independent_init_witness :
    (FullLanczosPolicy.initCache fullP trivialTridiag trivialToDiag rThree1
        sFullCached).evals_lanczos =
      (FullLanczosPolicy.initCache fullP trivialTridiag trivialToDiag rThree1
        { sFullCached with residual := fun _ => 5 }).evals_lanczos ∧
    (FullLanczosPolicy.initCache fullP trivialTridiag trivialToDiag rThree1
        sFullCached).evecs_lanczos =
      (FullLanczosPolicy.initCache fullP trivialTridiag trivialToDiag rThree1
        { sFullCached with residual := fun _ => 5 }).evecs_lanczos ∧
    (FullLanczosPolicy.initCache fullP trivialTridiag trivialToDiag rThree1
        sFullCached).init_vec =
      (FullLanczosPolicy.initCache fullP trivialTridiag trivialToDiag rThree1
        { sFullCached with residual := fun _ => 5 }).init_vec :=
  fullLanczos_residual_independent_init fullP trivialTridiag trivialToDiag
    rThree1 sFullCached (fun _ => 5) rfl
    sFullCached.residual (fun _ => 5)
    { sFullCached with cache :=
        (FullLanczosPolicy.initCache fullP trivialTridiag trivialToDiag
          rThree1 sFullCached) }
    { sFullCached with
        residual := fun _ => 5
        cache :=
          (FullLanczosPolicy.initCache fullP trivialTridiag trivialToDiag
            rThree1 { sFullCached with residual := fun _ => 5 }) }
    rfl rfl

/-- C4: at iteration 0, `FullLanczosPolicy` caches the eigenvalues sorted
according to the configured order — descending when `descending=True` (the
default), ascending when `descending=False` — with the eigenvector columns
permuted by the same ordering (both cache entries are projections of one
sorted pair list, which is a permutation of the computed eigenpairs);
every call with `iteration` below the number of cached eigenvectors
returns the eigenvector at column index `iteration`, and every call with
`iteration` at or above that number returns exactly the state's current
residual vector. -/
theorem fullLanczos_sorted_bank_and_selection {n k : ℕ} {TMat : Type}
    (p : FullLanczosPolicy)
    (lt : Matrix (Fin n) (Fin n) ℝ → Vec n → ℕ → ℝ → List (Vec n) × TMat)
    (ltd : TMat → List ℝ × List (List ℝ)) (r : Vec n)
    (s : SolverState n k n) (a : Vec n) (s' : SolverState n k n)
    (hcall : FullLanczosPolicy.call p lt ltd r s = Except.ok (a, s')) :
    (s.iteration = 0 →
      s'.cache.evals_lanczos =
        some ((sortEigenpairs p.descending
          (FullLanczosPolicy.computedPairs p lt ltd r s)).map Prod.fst) ∧
      s'.cache.evecs_lanczos =
        some ((sortEigenpairs p.descending
          (FullLanczosPolicy.computedPairs p lt ltd r s)).map Prod.snd) ∧
      (p.descending = true →
        List.Sorted (fun x y : ℝ => y ≤ x)
          ((sortEigenpairs p.descending
            (FullLanczosPolicy.computedPairs p lt ltd r s)).map Prod.fst)) ∧
      (p.descending = false →
        List.Sorted (fun x y : ℝ => x ≤ y)
          ((sortEigenpairs p.descending
            (FullLanczosPolicy.computedPairs p lt ltd r s)).map Prod.fst)) ∧
      (sortEigenpairs p.descending
          (FullLanczosPolicy.computedPairs p lt ltd r s)).Perm
        (FullLanczosPolicy.computedPairs p lt ltd r s)) ∧
    (∀ evecs : List (Vec n), s'.cache.evecs_lanczos = some evecs →
      (∀ hlt : s.iteration < evecs.length,
        a = evecs.get ⟨s.iteration, hlt⟩) ∧
      (evecs.length ≤ s.iteration → a = s.residual)) := by
  constructor
  · intro hit
    have e := FullLanczosPolicy.call_ok_updated hcall
    rw [if_pos hit] at e
    subst e
    refine ⟨?_, ?_, ?_, ?_, ?_⟩
    · simp [FullLanczosPolicy.initCache]
    · simp [FullLanczosPolicy.initCache]
    · intro hd
      have hsorted := List.sorted_insertionSort
        (fun a b : ℝ × Vec n => b.1 ≤ a.1)
        (FullLanczosPolicy.computedPairs p lt ltd r s)
      have hmap := List.Pairwise.map (R := fun a b : ℝ × Vec n => b.1 ≤ a.1)
        (S := fun x y : ℝ => y ≤ x) Prod.fst (fun _ _ hxy => hxy) hsorted
      simpa [sortEigenpairs, hd] using hmap
    · intro hd
      have hsorted := List.sorted_insertionSort
        (fun a b : ℝ × Vec n => a.1 ≤ b.1)
        (FullLanczosPolicy.computedPairs p lt ltd r s)
      have hmap := List.Pairwise.map (R := fun a b : ℝ × Vec n => a.1 ≤ b.1)
        (S := fun x y : ℝ => x ≤ y) Prod.fst (fun _ _ hxy => hxy) hsorted
      simpa [sortEigenpairs, hd] using hmap
    · cases hp : p.descending
      · simpa [sortEigenpairs, hp] using
          List.perm_insertionSort (fun a b : ℝ × Vec n => a.1 ≤ b.1)
            (FullLanczosPolicy.computedPairs p lt ltd r s)
      · simpa [sortEigenpairs, hp] using
          List.perm_insertionSort (fun a b : ℝ × Vec n => b.1 ≤ a.1)
            (FullLanczosPolicy.computedPairs p lt ltd r s)
  · intro evecs hv
    by_cases h0 : s.iteration = 0
    · have hsel : FullLanczosPolicy.select
          { s with cache := (FullLanczosPolicy.initCache p lt ltd r s) } =
          Except.ok (a, s') := by
        simpa [FullLanczosPolicy.call, h0] using hcall
      have e := FullLanczosPolicy.select_ok_eq hsel
      have hv' : ({ s with cache :=
          (FullLanczosPolicy.initCache p lt ltd r s) } :
          SolverState n k n).cache.evecs_lanczos = some evecs := by
        rw [← e]
        exact hv
      have h2 := FullLanczosPolicy.select_action hsel hv'
      exact h2
    · have hsel : FullLanczosPolicy.select s = Except.ok (a, s') := by
        simpa [FullLanczosPolicy.call, h0] using hcall
      have e := FullLanczosPolicy.select_ok_eq hsel
      have hv' : s.cache.evecs_lanczos = some evecs := by
        rw [← e]
        exact hv
      exact FullLanczosPolicy.select_action hsel hv'

/-- Witness for `fullLanczos_sorted_bank_and_selection` at the concrete
iteration-0 state with the trivial external collaborators, applied once
for each sort order: descending sortedness and permutation of the sorted
bank, ascending sortedness for the `descending=False` configuration, and
the residual fallback for an empty bank. -/
theorem fullLanczos_sorted_bank_and_selection_witness :
    List.Sorted (fun x y : ℝ => y ≤ x)
      ((sortEigenpairs fullP.descending (FullLanczosPolicy.computedPairs
        fullP trivialTridiag trivialToDiag rThree1 sFullCached)).map
        Prod.fst) ∧
    ((sortEigenpairs fullP.descending (FullLanczosPolicy.computedPairs fullP
        trivialTridiag trivialToDiag rThree1 sFullCached)).Perm
      (FullLanczosPolicy.computedPairs fullP trivialTridiag trivialToDiag
        rThree1 sFullCached)) ∧
    List.Sorted (fun x y : ℝ => x ≤ y)
      ((sortEigenpairs fullPAsc.descending (FullLanczosPolicy.computedPairs
        fullPAsc trivialTridiag trivialToDiag rThree1 sFullCached)).map
        Prod.fst) ∧
    sFullCached.residual = sFullCached.residual :=
  have h := fullLanczos_sorted_bank_and_selection fullP trivialTridiag
    trivialToDiag rThree1 sFullCached sFullCached.residual
    { sFullCached with cache :=
        (FullLanczosPolicy.initCache fullP trivialTridiag trivialToDiag
          rThree1 sFullCached) } rfl
  have hAsc := fullLanczos_sorted_bank_and_selection fullPAsc trivialTridiag
    trivialToDiag rThree1 sFullCached sFullCached.residual
    { sFullCached with cache :=
        (FullLanczosPolicy.initCache fullPAsc trivialTridiag trivialToDiag
          rThree1 sFullCached) } rfl
  ⟨(h.1 rfl).2.2.1 rfl, (h.1 rfl).2.2.2.2, (hAsc.1 rfl).2.2.2.1 rfl,
    (h.2 [] rfl).2 (Nat.zero_le _)⟩
